import Mathlib

/-!
Shallow embedding of `src/zeroconf-example.py`, a demonstration script that
registers an mDNS service and browses for services of the same type.

The external world (the OS socket layer, the `zeroconf` library, wall-clock
time and the callback thread) is modelled as explicit parameters: the result
of the UDP connect trick is an `Option IPv4`, a registration failure of the
library is a `Bool`, and the stream of listener callbacks delivered by the
service browser during the scan window is a `List CbEvent`.  The glue code of
the script itself is translated function by function.
-/

/-- A 4-byte IPv4 address, as handed over by the OS socket layer
(`getsockname` for an `AF_INET` socket) or produced by `socket.inet_aton`. -/
structure IPv4 where
  a : Fin 256
  b : Fin 256
  c : Fin 256
  d : Fin 256
deriving DecidableEq, Repr

/-- Rendering of a 4-byte address as a dotted-quad decimal string.  This is
what `socket.inet_ntoa` produces, and also the format in which CPython
reports an `AF_INET` socket's own address from `getsockname`. -/
def inet_ntoa (ip : IPv4) : String :=
  toString ip.a.val ++ "." ++ toString ip.b.val ++ "." ++ toString ip.c.val ++ "." ++ toString ip.d.val

/-- `get_local_ip` from the script: connect a UDP socket to 8.8.8.8:80 and
read back the socket's own address; on any exception return `"127.0.0.1"`.
`connectResult` is the environment: `some ip` when the connect/getsockname
calls succeed and the OS reports the 4-byte address `ip`, `none` when an
exception is raised. -/
def get_local_ip (connectResult : Option IPv4) : String :=
  match connectResult with
  | some ip => inet_ntoa ip
  | none => "127.0.0.1"

/-- All characters are decimal digits and there is at least one. -/
def isDigitList (xs : List Char) : Bool :=
  !xs.isEmpty && xs.all Char.isDigit

/-- Numeric value of a decimal digit string. -/
def listToNat (xs : List Char) : Nat :=
  xs.foldl (fun n c => n * 10 + (c.toNat - 48)) 0

/-- A character list is a valid decimal octet: nonempty, all digits, ≤ 255. -/
def octetOk (xs : List Char) : Bool :=
  isDigitList xs && decide (listToNat xs ≤ 255)

/-- No dot occurs in the character list. -/
def noDot (xs : List Char) : Bool :=
  xs.all (fun c => !(c == '.'))

/-- Split a character list at every dot (like Python's `str.split` on a
single-character separator: `n` dots yield `n + 1` pieces). -/
def splitDot : List Char → List (List Char)
  | [] => [[]]
  | c :: rest =>
    if c = '.' then [] :: splitDot rest
    else
      match splitDot rest with
      | [] => [[c]]
      | ys :: yss => (c :: ys) :: yss

/-- Spec-side predicate (from the spec's words "syntactically valid IPv4
dotted-quad string"): exactly four dot-separated nonempty decimal components,
each with value at most 255. -/
def isDottedQuadChars (xs : List Char) : Bool :=
  match splitDot xs with
  | [a, b, c, d] => octetOk a && octetOk b && octetOk c && octetOk d
  | _ => false

/-- Spec-side predicate on strings, see `isDottedQuadChars`. -/
def isDottedQuad (s : String) : Bool :=
  isDottedQuadChars s.data

/-- Parse one decimal octet. -/
def parseOctet (xs : List Char) : Option Nat :=
  if octetOk xs then some (listToNat xs) else none

/-- Bound-checked byte. -/
def mkOctet (n : Nat) : Option (Fin 256) :=
  if h : n < 256 then some ⟨n, h⟩ else none

/-- `socket.inet_aton` restricted to the standard dotted-quad form, the only
form this script ever passes to it (its arguments are either rendered by
`inet_ntoa`/`getsockname` or the literal `"127.0.0.1"`).  Returns the packed
4-byte address, or `none` when the C function would raise `OSError`. -/
def inet_aton (s : String) : Option IPv4 :=
  match splitDot s.data with
  | [a, b, c, d] =>
    match parseOctet a, parseOctet b, parseOctet c, parseOctet d with
    | some na, some nb, some nc, some nd =>
      match mkOctet na, mkOctet nb, mkOctet nc, mkOctet nd with
      | some fa, some fb, some fc, some fd => some ⟨fa, fb, fc, fd⟩
      | _, _, _, _ => none
    | _, _, _, _ => none
  | _ => none

/-- The `zeroconf.ServiceInfo` record built by `register_service`. -/
structure ServiceInfo where
  type_ : String
  name : String
  addresses : List IPv4
  port : Nat
  properties : List (String × String)
  server : String
deriving DecidableEq, Repr

/-- A `zeroconf.Zeroconf` instance: which services it has registered and
whether `close()` has been called on it. -/
structure ZInst where
  registered : List ServiceInfo
  closed : Bool
deriving DecidableEq, Repr

/-- Everything observable about one call to `register_service`: the returned
pair (`(None, None)` is `(none, none)`), the final state of the `Zeroconf`
instance the call created, and the `ServiceInfo` record it built. -/
structure RegResult where
  result : Option ZInst × Option ServiceInfo
  createdInst : ZInst
  builtInfo : ServiceInfo
deriving DecidableEq, Repr

/-- `register_service` from the script.  Environment parameters: `localIP`
feeds `get_local_ip`, `hostname` is `socket.gethostname()`, and
`registerRaises` tells whether the library call
`zeroconf_instance.register_service(info)` raises.  The `Except` layer models
an uncaught exception: `socket.inet_aton` is called outside the `try` block,
so its `OSError` on an unparseable address propagates to the caller. -/
def register_service (localIP : Option IPv4) (hostname : String) (registerRaises : Bool)
    (service_name service_type : String) (port : Nat) (ip_address : Option String) :
    Except Unit RegResult :=
  let ip := match ip_address with
    | none => get_local_ip localIP
    | some s => s
  let server := hostname ++ ".local."
  match inet_aton ip with
  | none => .error ()
  | some packed =>
    let info : ServiceInfo :=
      { type_ := service_type
        name := service_name ++ "." ++ service_type
        addresses := [packed]
        port := port
        properties := []
        server := server }
    if registerRaises then
      .ok { result := (none, none)
            createdInst := { registered := [], closed := true }
            builtInfo := info }
    else
      let zi : ZInst := { registered := [info], closed := false }
      .ok { result := (some zi, some info), createdInst := zi, builtInfo := info }

/-- What `zeroconf_instance.get_service_info(service_type, name)` reports
back inside the `add_service` callback: the raw packed addresses and the
port of the discovered service. -/
structure DiscInfo where
  addresses : List IPv4
  port : Nat
deriving DecidableEq, Repr

/-- One value of the discovered-services dictionary:
`{"addresses": [...], "port": ...}`. -/
structure SvcEntry where
  addresses : List String
  port : Nat
deriving DecidableEq, Repr

/-- The discovered-services dictionary, keyed by service name.  Modelled as
an association list in insertion order, exactly like a Python `dict`. -/
abbrev ServicesMap := List (String × SvcEntry)

/-- Key test for dictionary entries. -/
def keyEq (k : String) (p : String × SvcEntry) : Bool :=
  p.1 == k

/-- Python `d[k] = v`: overwrite in place when the key exists, else append. -/
def dictSet (m : ServicesMap) (k : String) (v : SvcEntry) : ServicesMap :=
  if m.any (keyEq k) then m.map (fun p => if keyEq k p then (k, v) else p)
  else m ++ [(k, v)]

/-- Python `d.get(k)`: value of the first (only) entry with key `k`. -/
def dictGet (m : ServicesMap) (k : String) : Option SvcEntry :=
  (m.find? (keyEq k)).map Prod.snd

/-- `MyListener.add_service`: look the service up; when `get_service_info`
returned an info object (`infoRes = some info`), store name ↦ {rendered
addresses, port}; when it returned `None`, do nothing. -/
def add_service (infoRes : Option DiscInfo) (name : String) (m : ServicesMap) : ServicesMap :=
  match infoRes with
  | none => m
  | some info => dictSet m name { addresses := info.addresses.map inet_ntoa, port := info.port }

/-- `MyListener.remove_service`: `pass`. -/
def remove_service (m : ServicesMap) : ServicesMap := m

/-- `MyListener.update_service`: `pass`. -/
def update_service (m : ServicesMap) : ServicesMap := m

/-- One callback event delivered by the `ServiceBrowser` during the scan
window.  An `added` event carries what `get_service_info` reports for the
name at that moment (`none` when the lookup fails). -/
inductive CbEvent where
  | added (name : String) (infoRes : Option DiscInfo)
  | removed (name : String)
  | updated (name : String)
deriving DecidableEq, Repr

/-- Effect of one callback event on the shared dictionary. -/
def stepEvent (m : ServicesMap) (e : CbEvent) : ServicesMap :=
  match e with
  | .added name infoRes => add_service infoRes name m
  | .removed _ => remove_service m
  | .updated _ => update_service m

/-- Effect of a whole sequence of callback events. -/
def runEvents (m : ServicesMap) (es : List CbEvent) : ServicesMap :=
  es.foldl stepEvent m

/-- Events that go through the `add_service` hook. -/
def isAddedEvent : CbEvent → Bool
  | .added _ _ => true
  | _ => false

/-- Everything observable about one call to `discover_services`: the mapping
it returns, the duration it passed to `time.sleep`, and whether it closed
the `Zeroconf` instance it created. -/
structure DiscoverResult where
  services : ServicesMap
  sleptFor : Nat
  instClosed : Bool
deriving DecidableEq, Repr

/-- `discover_services` from the script: create a fresh instance and an empty
dictionary, let the browser's callbacks (`events`, the environment) populate
it during the `time.sleep duration` window, then close the instance and
return the dictionary. -/
def discover_services (events : List CbEvent) (service_type : String) (duration : Nat := 5) :
    DiscoverResult :=
  let _ := service_type
  { services := runEvents [] events
    sleptFor := duration
    instClosed := true }

/-- Everything observable about one run of `test_mdns`: the pair returned by
`register_service`, the final state of the registration `Zeroconf` instance,
whether the discovery thread was started, and the printed service listing
(`none` when the run aborted before printing). -/
structure TestOutcome where
  regResult : Option ZInst × Option ServiceInfo
  regInstFinal : ZInst
  discoveryStarted : Bool
  printedListing : Option ServicesMap
deriving DecidableEq, Repr

/-- `test_mdns` from the script: resolve the local IP, register
`"test-service"` of type `"_http._tcp.local."` on port 8080, abort when the
returned pair is null-like, otherwise run the discovery thread (joined
before the results are read) and print the listing. -/
def test_mdns (localIP : Option IPv4) (hostname : String) (registerRaises : Bool)
    (events : List CbEvent) : Except Unit TestOutcome :=
  let service_ip := get_local_ip localIP
  match register_service localIP hostname registerRaises
      "test-service" "_http._tcp.local." 8080 (some service_ip) with
  | .error e => .error e
  | .ok rr =>
    match rr.result with
    | (some _, some _) =>
      let discovered := (discover_services events "_http._tcp.local." 2).services
      .ok { regResult := rr.result
            regInstFinal := rr.createdInst
            discoveryStarted := true
            printedListing := some discovered }
    | _ =>
      .ok { regResult := rr.result
            regInstFinal := rr.createdInst
            discoveryStarted := false
            printedListing := none }

/-- Program counter of the main thread in `test_mdns` around the
`discovery_thread.join()` call and the subsequent read of the results. -/
inductive MainPC where
  | beforeJoin
  | afterJoin
  | afterRead
deriving DecidableEq, Repr

/-- Joint state of the discovery worker thread (how many dictionary writes it
still has to perform, and whether it has terminated) and the main thread. -/
structure ThreadState where
  pendingWrites : Nat
  workerDone : Bool
  pc : MainPC
deriving DecidableEq, Repr

/-- Observable actions of the two threads of `test_mdns`. -/
inductive TAction where
  | write
  | finish
  | join
  | readResults
deriving DecidableEq, Repr

/-- Interleaving semantics of `test_mdns`'s two threads.  The worker performs
its dictionary writes and then terminates; `join` is a blocking wait with no
timeout, so it is only enabled once the worker has terminated; the main
thread reads the dictionary only after `join` returns. -/
inductive TStep : ThreadState → TAction → ThreadState → Prop where
  | write (n : Nat) (pc : MainPC) :
      TStep ⟨n + 1, false, pc⟩ .write ⟨n, false, pc⟩
  | finish (pc : MainPC) :
      TStep ⟨0, false, pc⟩ .finish ⟨0, true, pc⟩
  | join (w : Nat) :
      TStep ⟨w, true, .beforeJoin⟩ .join ⟨w, true, .afterJoin⟩
  | readResults (w : Nat) (d : Bool) :
      TStep ⟨w, d, .afterJoin⟩ .readResults ⟨w, d, .afterRead⟩

/-- Executions: traces of interleaved steps. -/
inductive TExec : ThreadState → List TAction → ThreadState → Prop where
  | nil (s : ThreadState) : TExec s [] s
  | cons {s s' s'' : ThreadState} {a : TAction} {tr : List TAction} :
      TStep s a s' → TExec s' tr s'' → TExec s (a :: tr) s''

/-- The `ServiceInfo` record `register_service` builds from its inputs, once
the bound address has been packed. -/
def builtRecord (hostname sn st : String) (port : Nat) (packed : IPv4) : ServiceInfo :=
  { type_ := st
    name := sn ++ "." ++ st
    addresses := [packed]
    port := port
    properties := []
    server := hostname ++ ".local." }

/-- The observable result of `register_service none "myhost" true
"test-service" "_http._tcp.local." 8080 (some "127.0.0.1")`, for use as a
concrete instance. -/
def regFailResult : RegResult :=
  { result := (none, none)
    createdInst := { registered := [], closed := true }
    builtInfo := builtRecord "myhost" "test-service" "_http._tcp.local." 8080 ⟨127, 0, 0, 1⟩ }

set_option maxRecDepth 4096 in
theorem octet_repr_ok : ∀ x : Fin 256,
    octetOk (toString x.val).data = true ∧
    listToNat (toString x.val).data = x.val ∧
    noDot (toString x.val).data = true := by decide

theorem dot_data : ("." : String).data = ['.'] := rfl

theorem noDot_cons {c : Char} {rest : List Char} (h : noDot (c :: rest) = true) :
    c ≠ '.' ∧ noDot rest = true := by
  simpa [noDot] using h

theorem splitDot_noDot (xs : List Char) (h : noDot xs = true) : splitDot xs = [xs] := by
  induction xs with
  | nil => rfl
  | cons c rest ih =>
    obtain ⟨hc, hrest⟩ := noDot_cons h
    rw [splitDot, if_neg hc, ih hrest]

theorem splitDot_sep (xs ys : List Char) (h : noDot xs = true) :
    splitDot (xs ++ '.' :: ys) = xs :: splitDot ys := by
  induction xs with
  | nil => simp [splitDot]
  | cons c rest ih =>
    obtain ⟨hc, hrest⟩ := noDot_cons h
    rw [List.cons_append, splitDot, if_neg hc, ih hrest]

theorem inet_ntoa_data (ip : IPv4) :
    (inet_ntoa ip).data =
      (toString ip.a.val).data ++ '.' ::
        ((toString ip.b.val).data ++ '.' ::
          ((toString ip.c.val).data ++ '.' :: (toString ip.d.val).data)) := by
  simp [inet_ntoa, String.data_append, dot_data]

theorem splitDot_inet_ntoa (ip : IPv4) :
    splitDot (inet_ntoa ip).data =
      [(toString ip.a.val).data, (toString ip.b.val).data,
       (toString ip.c.val).data, (toString ip.d.val).data] := by
  rw [inet_ntoa_data,
    splitDot_sep _ _ (octet_repr_ok ip.a).2.2,
    splitDot_sep _ _ (octet_repr_ok ip.b).2.2,
    splitDot_sep _ _ (octet_repr_ok ip.c).2.2,
    splitDot_noDot _ (octet_repr_ok ip.d).2.2]

theorem isDottedQuad_inet_ntoa (ip : IPv4) : isDottedQuad (inet_ntoa ip) = true := by
  simp [isDottedQuad, isDottedQuadChars, splitDot_inet_ntoa,
    (octet_repr_ok ip.a).1, (octet_repr_ok ip.b).1,
    (octet_repr_ok ip.c).1, (octet_repr_ok ip.d).1]

theorem inet_aton_inet_ntoa (ip : IPv4) : inet_aton (inet_ntoa ip) = some ip := by
  simp [inet_aton, splitDot_inet_ntoa, parseOctet,
    (octet_repr_ok ip.a).1, (octet_repr_ok ip.b).1,
    (octet_repr_ok ip.c).1, (octet_repr_ok ip.d).1,
    (octet_repr_ok ip.a).2.1, (octet_repr_ok ip.b).2.1,
    (octet_repr_ok ip.c).2.1, (octet_repr_ok ip.d).2.1,
    mkOctet, ip.a.isLt, ip.b.isLt, ip.c.isLt, ip.d.isLt]

theorem inet_aton_get_local_ip (r : Option IPv4) :
    inet_aton (get_local_ip r) = some (r.getD ⟨127, 0, 0, 1⟩) := by
  cases r with
  | none => decide
  | some ip => simpa [get_local_ip] using inet_aton_inet_ntoa ip

theorem keyEq_self (k : String) (v : SvcEntry) : keyEq k (k, v) = true := by
  simp [keyEq]

theorem find?_replace_of_any (m : ServicesMap) (k : String) (v : SvcEntry)
    (h : m.any (keyEq k) = true) :
    (m.map (fun p => if keyEq k p then (k, v) else p)).find? (keyEq k) = some (k, v) := by
  induction m with
  | nil => simp at h
  | cons p rest ih =>
    by_cases hp : keyEq k p = true
    · simp [List.find?_cons, hp, keyEq_self]
    · have hrest : rest.any (keyEq k) = true := by
        simpa [List.any_cons, hp] using h
      have hp' : keyEq k p = false := by simpa using hp
      simpa [List.find?_cons, hp'] using ih hrest

theorem find?_append_not_any (m : ServicesMap) (k : String) (v : SvcEntry)
    (h : m.any (keyEq k) = false) :
    (m ++ [(k, v)]).find? (keyEq k) = some (k, v) := by
  induction m with
  | nil => simp [List.find?_cons, keyEq_self]
  | cons p rest ih =>
    have hp : keyEq k p = false := by
      rcases (List.any_cons ▸ h : (keyEq k p || rest.any (keyEq k)) = false) with h'
      exact (Bool.or_eq_false_iff.mp h').1
    have hrest : rest.any (keyEq k) = false := by
      rcases (List.any_cons ▸ h : (keyEq k p || rest.any (keyEq k)) = false) with h'
      exact (Bool.or_eq_false_iff.mp h').2
    rw [List.cons_append, List.find?_cons, hp]
    exact ih hrest

theorem dictGet_dictSet_self (m : ServicesMap) (k : String) (v : SvcEntry) :
    dictGet (dictSet m k v) k = some v := by
  by_cases h : m.any (keyEq k) = true
  · rw [dictSet, if_pos h, dictGet, find?_replace_of_any m k v h]
    rfl
  · have h' : m.any (keyEq k) = false := by simpa using h
    rw [dictSet, if_neg (by simp [h']), dictGet, find?_append_not_any m k v h']
    rfl

theorem countP_replace (m : ServicesMap) (k k' : String) (v : SvcEntry) :
    (m.map (fun p => if keyEq k p then (k, v) else p)).countP (keyEq k') =
      m.countP (keyEq k') := by
  induction m with
  | nil => rfl
  | cons p rest ih =>
    by_cases hp : keyEq k p = true
    · have hpk : p.1 = k := by simpa [keyEq] using hp
      have hsame : keyEq k' (k, v) = keyEq k' p := by
        simp [keyEq, hpk]
      simp [List.countP_cons, hp, ih, hsame]
    · simp [List.countP_cons, hp, ih]

theorem countP_eq_zero_of_not_any (m : ServicesMap) (k : String)
    (h : m.any (keyEq k) = false) : m.countP (keyEq k) = 0 := by
  rw [List.countP_eq_zero]
  intro p hp
  exact (List.any_eq_false.mp h) p hp

theorem countP_pos_of_any (m : ServicesMap) (k : String)
    (h : m.any (keyEq k) = true) : 0 < m.countP (keyEq k) := by
  rw [List.countP_pos_iff]
  exact List.any_eq_true.mp h

theorem countP_dictSet_self (m : ServicesMap) (k : String) (v : SvcEntry)
    (h : m.countP (keyEq k) ≤ 1) :
    (dictSet m k v).countP (keyEq k) = 1 := by
  by_cases ha : m.any (keyEq k) = true
  · rw [dictSet, if_pos ha, countP_replace]
    have := countP_pos_of_any m k ha
    omega
  · have ha' : m.any (keyEq k) = false := by simpa using ha
    rw [dictSet, if_neg (by simp [ha'])]
    simp [List.countP_append, countP_eq_zero_of_not_any m k ha', List.countP_cons, keyEq_self]

/-- The dictionary invariant: at most one entry per key (as in a Python
`dict`). -/
def DictInv (m : ServicesMap) : Prop :=
  ∀ k, m.countP (keyEq k) ≤ 1

theorem dictInv_nil : DictInv [] := by
  intro k
  simp

theorem dictInv_dictSet (m : ServicesMap) (k : String) (v : SvcEntry)
    (h : DictInv m) : DictInv (dictSet m k v) := by
  intro k'
  by_cases ha : m.any (keyEq k) = true
  · rw [dictSet, if_pos ha, countP_replace]
    exact h k'
  · have ha' : m.any (keyEq k) = false := by simpa using ha
    rw [dictSet, if_neg (by simp [ha']), List.countP_append]
    by_cases hk : k = k'
    · subst hk
      simp [countP_eq_zero_of_not_any m k ha', List.countP_cons, keyEq_self]
    · have : keyEq k' (k, v) = false := by
        simp [keyEq]
        exact hk
      simpa [List.countP_cons, this] using h k'

theorem dictInv_stepEvent (m : ServicesMap) (e : CbEvent)
    (h : DictInv m) : DictInv (stepEvent m e) := by
  cases e with
  | added name infoRes =>
    cases infoRes with
    | none => exact h
    | some info => exact dictInv_dictSet _ _ _ h
  | removed _ => exact h
  | updated _ => exact h

theorem dictInv_runEvents (es : List CbEvent) (m : ServicesMap)
    (h : DictInv m) : DictInv (runEvents m es) := by
  induction es generalizing m with
  | nil => exact h
  | cons e rest ih =>
    rw [runEvents, List.foldl_cons]
    exact ih _ (dictInv_stepEvent _ _ h)

theorem tstep_done {s s' : ThreadState} {a : TAction} (h : TStep s a s')
    (hd : s.workerDone = true) : s'.workerDone = true ∧ a ≠ TAction.write := by
  cases h <;> simp_all

theorem texec_no_write {s : ThreadState} {tr : List TAction} {s' : ThreadState}
    (h : TExec s tr s') (hd : s.workerDone = true) : TAction.write ∉ tr := by
  induction h with
  | nil => simp
  | cons hstep hrest ih =>
    have hds := tstep_done hstep hd
    intro hmem
    rcases List.mem_cons.mp hmem with h1 | h2
    · exact hds.2 h1.symm
    · exact ih hds.1 h2

/-- States in which the main thread can only have passed `join` if the worker
has already terminated. -/
def JoinInv (s : ThreadState) : Prop :=
  s.pc = MainPC.beforeJoin ∨ s.workerDone = true

theorem tstep_joinInv {s s' : ThreadState} {a : TAction} (h : TStep s a s')
    (hinv : JoinInv s) : JoinInv s' := by
  cases h with
  | write n pc => exact hinv
  | finish pc => exact Or.inr rfl
  | join w => exact Or.inr rfl
  | readResults w d =>
    rcases hinv with h1 | h2
    · exact absurd h1 (by simp)
    · exact Or.inr h2

theorem texec_write_before_read_aux :
    ∀ (tr : List TAction) (s s' : ThreadState), TExec s tr s' → JoinInv s →
      ∀ t1 t2 : List TAction, tr = t1 ++ TAction.readResults :: t2 →
        TAction.write ∉ t2 := by
  intro tr
  induction tr with
  | nil =>
    intro s s' _ _ t1 t2 hsplit
    exact absurd hsplit (by simp)
  | cons a rest ih =>
    intro s s' hexec hinv t1 t2 hsplit
    cases hexec with
    | cons hstep hrest =>
      cases t1 with
      | nil =>
        have ha : a = TAction.readResults := by
          simpa using congrArg (fun l => l.head?) hsplit
        have ht : rest = t2 := by
          simpa using congrArg (fun l => l.tail) hsplit
        subst ha
        cases hstep with
        | readResults w d =>
          have hd : d = true := by
            rcases hinv with h1 | h2
            · exact absurd h1 (by simp)
            · exact h2
          subst hd ht
          exact texec_no_write hrest rfl
      | cons b t1' =>
        have hb : a = b := by
          simpa using congrArg (fun l => l.head?) hsplit
        have ht : rest = t1' ++ TAction.readResults :: t2 := by
          simpa using congrArg (fun l => l.tail) hsplit
        exact ih _ _ hrest (tstep_joinInv hstep hinv) t1' t2 ht

theorem register_service_eval (localIP : Option IPv4) (hostname : String) (raises : Bool)
    (sn st : String) (port : Nat) (ip? : Option String) (packed : IPv4)
    (hs : inet_aton (match ip? with | none => get_local_ip localIP | some s => s) = some packed) :
    register_service localIP hostname raises sn st port ip? =
      if raises then
        .ok { result := (none, none)
              createdInst := { registered := [], closed := true }
              builtInfo := builtRecord hostname sn st port packed }
      else
        .ok { result := (some { registered := [builtRecord hostname sn st port packed], closed := false },
                         some (builtRecord hostname sn st port packed))
              createdInst := { registered := [builtRecord hostname sn st port packed], closed := false }
              builtInfo := builtRecord hostname sn st port packed } := by
  cases ip? with
  | none => cases raises <;> simp_all [register_service, builtRecord]
  | some s => cases raises <;> simp_all [register_service, builtRecord]

/-- C3: `get_local_ip` always returns a syntactically valid IPv4 dotted-quad
string; when the connect attempt raises it returns exactly `"127.0.0.1"`, and
otherwise it returns the socket's own bound address as reported by the OS,
rendered as a dotted quad. -/
theorem get_local_ip_valid (r : Option IPv4) :
    isDottedQuad (get_local_ip r) = true ∧
    (r = none → get_local_ip r = "127.0.0.1") ∧
    (∀ ip : IPv4, r = some ip → get_local_ip r = inet_ntoa ip) := by
  refine ⟨?_, ?_, ?_⟩
  · cases r with
    | none => decide
    | some ip => exact isDottedQuad_inet_ntoa ip
  · intro h
    subst h
    rfl
  · intro ip h
    subst h
    rfl

/-- Witness for `get_local_ip_valid` at the two concrete environments. -/
theorem get_local_ip_valid_witness :
    isDottedQuad (get_local_ip none) = true ∧
    get_local_ip none = "127.0.0.1" ∧
    get_local_ip (some ⟨8, 8, 8, 8⟩) = inet_ntoa ⟨8, 8, 8, 8⟩ :=
  ⟨(get_local_ip_valid none).1, (get_local_ip_valid none).2.1 rfl,
   (get_local_ip_valid (some ⟨8, 8, 8, 8⟩)).2.2 _ rfl⟩

/-- C9: an `added` callback whose `get_service_info` lookup returns `None`
leaves the discovered-services dictionary exactly unchanged. -/
theorem add_service_none_no_change (m : ServicesMap) (name : String) :
    add_service none name m = m ∧ stepEvent m (CbEvent.added name none) = m :=
  ⟨rfl, rfl⟩

/-- C5: the `remove_service` and `update_service` callbacks are no-ops: each
leaves the dictionary unchanged, and any event sequence has the same effect
as the subsequence of its `added` events alone. -/
theorem remove_update_no_ops (m : ServicesMap) (name : String) (es : List CbEvent) :
    stepEvent m (CbEvent.removed name) = m ∧
    stepEvent m (CbEvent.updated name) = m ∧
    runEvents m es = runEvents m (es.filter isAddedEvent) := by
  refine ⟨rfl, rfl, ?_⟩
  induction es generalizing m with
  | nil => rfl
  | cons e rest ih =>
    cases e with
    | added n i =>
      rw [runEvents, List.foldl_cons, List.filter_cons]
      simp only [isAddedEvent, if_pos]
      rw [runEvents, List.foldl_cons]
      exact ih (stepEvent m (CbEvent.added n i))
    | removed n =>
      rw [runEvents, List.foldl_cons, List.filter_cons]
      simp only [isAddedEvent, if_neg]
      exact ih m
    | updated n =>
      rw [runEvents, List.foldl_cons, List.filter_cons]
      simp only [isAddedEvent, if_neg]
      exact ih m

/-- C4: `discover_services` sleeps for exactly the requested duration, closes
the `Zeroconf` instance it created, and returns the mapping accumulated by
the callbacks; with no events it returns the empty mapping (no error). -/
theorem discover_services_spec (events : List CbEvent) (st : String) (d : Nat) :
    (discover_services events st d).sleptFor = d ∧
    (discover_services events st d).instClosed = true ∧
    (discover_services events st d).services = runEvents [] events ∧
    (discover_services [] st d).services = [] :=
  ⟨rfl, rfl, rfl, rfl⟩

/-- C2 counterexample: when `get_service_info` reports an info object whose
address list is empty, the `add_service` callback stores an entry whose
`"addresses"` list is empty, so the claimed invariant fails at this input. -/
theorem add_service_empty_addresses_counterexample :
    dictGet (add_service (some { addresses := [], port := 8080 })
        "empty._http._tcp.local." []) "empty._http._tcp.local." =
      some { addresses := [], port := 8080 } := by
  decide

/-- C2 as amended: the entry stored by `add_service` holds exactly one
rendered address per address in the reported info, so it is non-empty
whenever the reported info's address list is non-empty. -/
theorem add_service_some_entry (m : ServicesMap) (name : String) (info : DiscInfo)
    (h : info.addresses ≠ []) :
    ∃ e : SvcEntry,
      dictGet (add_service (some info) name m) name = some e ∧
      e.addresses = info.addresses.map inet_ntoa ∧
      e.addresses ≠ [] := by
  refine ⟨_, dictGet_dictSet_self m name _, rfl, ?_⟩
  simpa using h

/-- Witness for `add_service_some_entry` at a concrete info. -/
theorem add_service_some_entry_witness :
    ∃ e : SvcEntry,
      dictGet (add_service (some { addresses := [⟨192, 168, 1, 2⟩], port := 80 })
          "printer._http._tcp.local." []) "printer._http._tcp.local." = some e ∧
      e.addresses =
        ({ addresses := [⟨192, 168, 1, 2⟩], port := 80 } : DiscInfo).addresses.map inet_ntoa ∧
      e.addresses ≠ [] :=
  add_service_some_entry [] "printer._http._tcp.local."
    { addresses := [⟨192, 168, 1, 2⟩], port := 80 } (by decide)

/-- C6: after two `added` events for the same name, each with a resolvable
info, the dictionary holds exactly one entry under that name, and it carries
the addresses and port of the later event (last write wins). -/
theorem add_service_last_write_wins (es : List CbEvent) (name : String) (i1 i2 : DiscInfo) :
    (runEvents [] (es ++ [CbEvent.added name (some i1), CbEvent.added name (some i2)])).countP
        (keyEq name) = 1 ∧
    dictGet (runEvents [] (es ++ [CbEvent.added name (some i1), CbEvent.added name (some i2)]))
        name = some { addresses := i2.addresses.map inet_ntoa, port := i2.port } := by
  have hrw : runEvents [] (es ++ [CbEvent.added name (some i1), CbEvent.added name (some i2)]) =
      dictSet (dictSet (runEvents [] es) name
          { addresses := i1.addresses.map inet_ntoa, port := i1.port }) name
        { addresses := i2.addresses.map inet_ntoa, port := i2.port } := by
    rw [runEvents, List.foldl_append]
    rfl
  constructor
  · rw [hrw]
    exact countP_dictSet_self _ _ _
      (dictInv_dictSet _ _ _ (dictInv_runEvents es [] dictInv_nil) name)
  · rw [hrw]
    exact dictGet_dictSet_self _ _ _

/-- C7: with `ip_address = none`, `register_service` resolves the address via
`get_local_ip` and packs exactly that address into the record's address
list; with a supplied address, exactly that address is packed. -/
theorem register_service_ip_choice (localIP : Option IPv4) (hostname sn st : String)
    (port : Nat) (raises : Bool) (s : String) (ip : IPv4)
    (hs : inet_aton s = some ip) :
    (∃ rr : RegResult,
        register_service localIP hostname raises sn st port none = .ok rr ∧
        inet_aton (get_local_ip localIP) = some (localIP.getD ⟨127, 0, 0, 1⟩) ∧
        rr.builtInfo.addresses = [localIP.getD ⟨127, 0, 0, 1⟩]) ∧
    (∃ rr : RegResult,
        register_service localIP hostname raises sn st port (some s) = .ok rr ∧
        rr.builtInfo.addresses = [ip]) := by
  have h1 := register_service_eval localIP hostname raises sn st port none
    (localIP.getD ⟨127, 0, 0, 1⟩) (inet_aton_get_local_ip localIP)
  have h2 := register_service_eval localIP hostname raises sn st port (some s) ip hs
  cases raises with
  | false =>
    simp only [Bool.false_eq_true, if_false] at h1 h2
    exact ⟨⟨_, h1, inet_aton_get_local_ip localIP, rfl⟩, ⟨_, h2, rfl⟩⟩
  | true =>
    simp only [if_true] at h1 h2
    exact ⟨⟨_, h1, inet_aton_get_local_ip localIP, rfl⟩, ⟨_, h2, rfl⟩⟩

/-- Witness for `register_service_ip_choice` at a concrete environment. -/
theorem register_service_ip_choice_witness :
    (∃ rr : RegResult,
        register_service none "myhost" false "svc" "_http._tcp.local." 81 none = .ok rr ∧
        inet_aton (get_local_ip none) = some ((none : Option IPv4).getD ⟨127, 0, 0, 1⟩) ∧
        rr.builtInfo.addresses = [(none : Option IPv4).getD ⟨127, 0, 0, 1⟩]) ∧
    (∃ rr : RegResult,
        register_service none "myhost" false "svc" "_http._tcp.local." 81
          (some "10.0.0.5") = .ok rr ∧
        rr.builtInfo.addresses = [⟨10, 0, 0, 5⟩]) :=
  register_service_ip_choice none "myhost" "svc" "_http._tcp.local." 81 false
    "10.0.0.5" ⟨10, 0, 0, 5⟩ (by decide)

/-- C10: the advertised full service name is the instance name, a dot, and
the service type, and the server field is the hostname with `".local."`
appended, for every input. -/
theorem register_service_name_server (localIP : Option IPv4) (hostname : String)
    (raises : Bool) (sn st : String) (port : Nat) (ip? : Option String) (rr : RegResult)
    (h : register_service localIP hostname raises sn st port ip? = .ok rr) :
    rr.builtInfo.name = sn ++ "." ++ st ∧ rr.builtInfo.server = hostname ++ ".local." := by
  simp only [register_service] at h
  split at h
  · exact absurd h (by simp)
  · split at h
    · obtain rfl := Except.ok.inj h
      exact ⟨rfl, rfl⟩
    · obtain rfl := Except.ok.inj h
      exact ⟨rfl, rfl⟩

/-- Witness for `register_service_name_server` at a concrete input. -/
theorem register_service_name_server_witness :
    regFailResult.builtInfo.name = "test-service" ++ "." ++ "_http._tcp.local." ∧
    regFailResult.builtInfo.server = "myhost" ++ ".local." :=
  register_service_name_server none "myhost" true "test-service" "_http._tcp.local." 8080
    (some "127.0.0.1") regFailResult (by rfl)

/-- C1: when the library's registration call raises, `register_service`
returns the pair `(none, none)` after closing the `Zeroconf` instance it
created, and `test_mdns`, receiving the null-like pair, aborts the remaining
flow: the discovery thread is never started and no service listing is
printed. -/
theorem register_failure_aborts (localIP : Option IPv4) (hostname : String)
    (events : List CbEvent) (sn st : String) (port : Nat) (ip_address : Option String)
    (rr : RegResult)
    (hreg : register_service localIP hostname true sn st port ip_address = .ok rr) :
    rr.result = (none, none) ∧ rr.createdInst.closed = true ∧
    ∃ o : TestOutcome, test_mdns localIP hostname true events = .ok o ∧
      o.regResult = (none, none) ∧ o.discoveryStarted = false ∧ o.printedListing = none := by
  have hab : rr.result = (none, none) ∧ rr.createdInst.closed = true := by
    simp only [register_service] at hreg
    split at hreg
    · exact absurd hreg (by simp)
    · simp only [if_true] at hreg
      obtain rfl := Except.ok.inj hreg
      exact ⟨rfl, rfl⟩
  refine ⟨hab.1, hab.2, ?_⟩
  have heval := register_service_eval localIP hostname true "test-service" "_http._tcp.local."
    8080 (some (get_local_ip localIP)) (localIP.getD ⟨127, 0, 0, 1⟩)
    (inet_aton_get_local_ip localIP)
  simp only [if_true] at heval
  have htm : test_mdns localIP hostname true events =
      .ok { regResult := (none, none)
            regInstFinal := { registered := [], closed := true }
            discoveryStarted := false
            printedListing := none } := by
    simp only [test_mdns, heval]
  exact ⟨_, htm, rfl, rfl, rfl⟩

/-- Witness for `register_failure_aborts` at a concrete environment. -/
theorem register_failure_aborts_witness :
    regFailResult.result = (none, none) ∧ regFailResult.createdInst.closed = true ∧
    ∃ o : TestOutcome, test_mdns none "myhost" true [] = .ok o ∧
      o.regResult = (none, none) ∧ o.discoveryStarted = false ∧ o.printedListing = none :=
  register_failure_aborts none "myhost" [] "test-service" "_http._tcp.local." 8080
    (some "127.0.0.1") regFailResult (by rfl)

/-- C8: in every interleaved execution of the discovery worker and the main
thread, every dictionary write precedes the main thread's read of the
results, because `discovery_thread.join()` — a blocking wait with no timeout
— can only complete once the worker has terminated. -/
theorem join_orders_writes_before_read (n : Nat) (tr : List TAction) (s' : ThreadState)
    (h : TExec { pendingWrites := n, workerDone := false, pc := MainPC.beforeJoin } tr s')
    (t1 t2 : List TAction) (hsplit : tr = t1 ++ TAction.readResults :: t2) :
    TAction.write ∉ t2 :=
  texec_write_before_read_aux tr _ s' h (Or.inl rfl) t1 t2 hsplit

/-- Witness for `join_orders_writes_before_read` on a concrete execution. -/
theorem join_orders_writes_before_read_witness :
    TAction.write ∉ ([] : List TAction) :=
  join_orders_writes_before_read 1
    [TAction.write, TAction.finish, TAction.join, TAction.readResults]
    { pendingWrites := 0, workerDone := true, pc := MainPC.afterRead }
    (TExec.cons (TStep.write 0 MainPC.beforeJoin)
      (TExec.cons (TStep.finish MainPC.beforeJoin)
        (TExec.cons (TStep.join 0)
          (TExec.cons (TStep.readResults 0 true)
            (TExec.nil _)))))
    [TAction.write, TAction.finish, TAction.join] [] rfl
